import Mathlib

/-!
Verification of the DMS document-permission core: a shallow embedding of
`src/backend/src/services/permissions.ts` (the Permission Store and
Mutation Service), of the optimistic-update logic in the client
`ShareModal` component, and of the visibility resolver described by the
specification.  The TypeScript `Map`-backed store is modelled as an
association list; the wall clock (`new Date().toISOString()` /
`Date.now()`) is passed in as an explicit parameter.
-/

namespace DMS

/-- `Visibility` from `src/backend/src/types/permissions.ts`:
`'public' | 'restricted' | 'account'`. -/
inductive Visibility
  | public
  | restricted
  | account
deriving DecidableEq

/-- `PermissionLevel`: `'read' | 'comment' | 'edit'`. -/
inductive PermissionLevel
  | read
  | comment
  | edit
deriving DecidableEq

/-- `DomainRestriction` interface. -/
structure DomainRestriction where
  domain : String
deriving DecidableEq

/-- `AccountPermission` interface. -/
structure AccountPermission where
  accountId : String
  email : String
  permission : PermissionLevel
deriving DecidableEq

/-- `CollaboratorAuditEntry` interface. -/
structure CollaboratorAuditEntry where
  accountId : String
  email : String
  permission : PermissionLevel
  updatedAt : String
  updatedBy : String
deriving DecidableEq

/-- `DocumentPermissions` interface: the per-document permission record. -/
structure DocumentPermissions where
  documentId : String
  visibility : Visibility
  domains : List DomainRestriction
  accounts : List AccountPermission
  auditTrail : List CollaboratorAuditEntry
deriving DecidableEq

/-- `type Storage = Map<string, DocumentPermissions>`, modelled as an
association list keyed by document id. -/
abbrev Storage : Type := List (String × DocumentPermissions)

/-- The default record created lazily by `getOrCreate`. -/
def defaultRecord (documentId : String) : DocumentPermissions :=
  { documentId := documentId
    visibility := .restricted
    domains := []
    accounts := []
    auditTrail := [] }

/-- Lookup half of `getOrCreate`: the stored record for `documentId`, or
the lazily-created default when none is stored. -/
def getOrCreateRecord (store : Storage) (documentId : String) :
    DocumentPermissions :=
  match store.find? (fun p => p.1 = documentId) with
  | some p => p.2
  | none => defaultRecord documentId

/-- `store.set(documentId, rec)`: replace (or insert) the record for a key. -/
def putRecord (store : Storage) (documentId : String)
    (rec : DocumentPermissions) : Storage :=
  (documentId, rec) :: store.filter (fun p => p.1 ≠ documentId)

/-- The audit entry pushed by `updateAudit` for one account:
`{accountId, email, permission, updatedAt: timestamp, updatedBy: changedBy}`. -/
def mkAuditEntry (timestamp changedBy : String) (a : AccountPermission) :
    CollaboratorAuditEntry :=
  { accountId := a.accountId
    email := a.email
    permission := a.permission
    updatedAt := timestamp
    updatedBy := changedBy }

/-- `updateAudit(documentId, changedBy, accounts)`: for each account,
`unshift` a fresh entry (all sharing one `timestamp`) onto the stored
record's `auditTrail`, then truncate with `slice(0, 50)`. -/
def updateAudit (store : Storage) (documentId changedBy timestamp : String)
    (accounts : List AccountPermission) : Storage :=
  let permissions := getOrCreateRecord store documentId
  let trail := accounts.foldl
    (fun t a => mkAuditEntry timestamp changedBy a :: t)
    permissions.auditTrail
  putRecord store documentId { permissions with auditTrail := trail.take 50 }

/-- `getPermissions(documentId)`: returns the record, creating the lazy
default when absent (the TS `getOrCreate` inserts into the map). -/
def getPermissions (store : Storage) (documentId : String) :
    DocumentPermissions × Storage :=
  let permissions := getOrCreateRecord store documentId
  (permissions, putRecord store documentId permissions)

/-- `setVisibility(documentId, visibility, actorId)`: sets the mode and,
when the new mode is `public`, clears `domains` and `accounts` in the same
call. -/
def setVisibility (store : Storage) (documentId : String)
    (visibility : Visibility) (actorId : String) :
    DocumentPermissions × Storage :=
  let permissions := getOrCreateRecord store documentId
  let permissions :=
    if visibility = .public then
      { permissions with visibility := visibility, domains := [], accounts := [] }
    else
      { permissions with visibility := visibility }
  (permissions, putRecord store documentId permissions)

/-- `setDomainRestrictions(documentId, domains, actorId)`: forces
`visibility = 'restricted'` and stores the given list verbatim. -/
def setDomainRestrictions (store : Storage) (documentId : String)
    (domains : List DomainRestriction) (actorId : String) :
    DocumentPermissions × Storage :=
  let permissions := getOrCreateRecord store documentId
  let permissions := { permissions with visibility := .restricted, domains := domains }
  (permissions, putRecord store documentId permissions)

/-- `setAccountPermissions(documentId, accounts, actorId)`: forces
`visibility = 'account'`, replaces the full account list, then runs
`updateAudit` over the new list.  `timestamp` stands for the
`new Date().toISOString()` taken inside `updateAudit`. -/
def setAccountPermissions (store : Storage) (documentId : String)
    (accounts : List AccountPermission) (actorId timestamp : String) :
    DocumentPermissions × Storage :=
  let permissions := getOrCreateRecord store documentId
  let permissions := { permissions with visibility := .account, accounts := accounts }
  let store := putRecord store documentId permissions
  let store := updateAudit store documentId actorId timestamp accounts
  (getOrCreateRecord store documentId, store)

/-- `removeAccountPermission(documentId, accountId, actorId)`: filters out
every account whose `accountId` matches, then runs `updateAudit` over the
remaining list. -/
def removeAccountPermission (store : Storage) (documentId accountId : String)
    (actorId timestamp : String) : DocumentPermissions × Storage :=
  let permissions := getOrCreateRecord store documentId
  let remaining := permissions.accounts.filter (fun a => a.accountId ≠ accountId)
  let permissions := { permissions with accounts := remaining }
  let store := putRecord store documentId permissions
  let store := updateAudit store documentId actorId timestamp remaining
  (getOrCreateRecord store documentId, store)

/-! ### Client-side ShareModal (optimistic update coordinator)

Embeds the pure logic of `ShareModal` from
`src/frontend/src/components/DocumentGrid/VisibilityBadge.tsx`: the local
state (the displayed `DocumentPermissionsResponse` plus the `optimistic`
flag and the `error` banner), the `addDomain` / `addAccount` list editors,
and `handleAccountSubmit` with its capture of `previous`, optimistic
update, `commitUpdate` and `rollbackUpdate`.  React state updates become
explicit state passing; the awaited server call becomes an `ApiResult`
parameter; i18n message keys stand for the translated strings. -/

/-- The i18n key of the generic failure banner,
`t('permissions.shareModal.error.generic')`. -/
def genericErrorKey : String := "permissions.shareModal.error.generic"

/-- The i18n key of the empty-account-list validation message. -/
def accountRequiredKey : String := "permissions.shareModal.validation.accountRequired"

/-- The i18n key of the domain validation message. -/
def domainRequiredKey : String := "permissions.shareModal.validation.domainRequired"

/-- The ShareModal's local React state: `localPermissions` (with its
`optimistic` flag) and the `error` banner. -/
structure ModalState where
  permissions : DocumentPermissions
  optimistic : Bool
  error : Option String
deriving DecidableEq

/-- Outcome of the awaited mutation-service call: the authoritative
response, or a rejection. -/
inductive ApiResult
  | success (updated : DocumentPermissions)
  | failure
deriving DecidableEq

/-- JS whitespace as removed by `String.prototype.trim` (the ASCII part). -/
def isJsWhitespace (c : Char) : Bool :=
  c = ' ' || c = '\t' || c = '\n' || c = '\r' || c = '\x0b' || c = '\x0c'

/-- `value.trim()`: drop leading and trailing whitespace. -/
def jsTrim (s : String) : String :=
  String.mk (((s.data.dropWhile isJsWhitespace).reverse.dropWhile
    isJsWhitespace).reverse)

/-- `value.toLowerCase()` (character-wise, ASCII letters). -/
def jsToLower (s : String) : String :=
  String.mk (s.data.map Char.toLower)

/-- `isValidDomain`: `value.trim().length > 0 && value.includes('.')`. -/
def isValidDomain (value : String) : Bool :=
  decide (0 < (jsTrim value).length) && value.data.contains '.'

/-- `value.replace(/^@/, '')`: strip one leading `@`. -/
def stripLeadingAt (s : String) : String :=
  match s.data with
  | '@' :: rest => String.mk rest
  | _ => s

/-- `normaliseDomain`: `value.trim().replace(/^@/, '').toLowerCase()`. -/
def normaliseDomain (value : String) : String :=
  jsToLower (stripLeadingAt (jsTrim value))

/-- `isValidEmail`: `/.+@.+\..+/.test(value)` — some `@` preceded by at
least one character, and some later `.` with at least one character on
each side of it. -/
def isValidEmail (value : String) : Bool :=
  let cs := value.toList
  (List.range cs.length).any fun p =>
    (List.range cs.length).any fun q =>
      decide (cs.get? p = some '@') && decide (cs.get? q = some '.') &&
        decide (1 ≤ p) && decide (p + 2 ≤ q) && decide (q + 2 ≤ cs.length)

/-- `addDomain`: reject an invalid input with the validation banner;
otherwise clear the banner and append the normalised domain unless an
equal domain is already present. -/
def addDomain (s : ModalState) (domainInput : String) : ModalState :=
  if !isValidDomain domainInput then
    { s with error := some domainRequiredKey }
  else
    let newDomain := normaliseDomain domainInput
    if s.permissions.domains.any (fun d => d.domain = newDomain) then
      { s with error := none }
    else
      { s with
        error := none
        permissions :=
          { s.permissions with
            domains := s.permissions.domains ++ [{ domain := newDomain }] } }

/-- `addAccount`: reject an invalid email with the validation banner;
otherwise build `{accountId: tempId, email, permission}` (where `tempId`
stands for the generated id `temp-` + `Date.now()`) and replace the entry with
the same email, or push a new one. -/
def addAccount (s : ModalState) (accountEmail : String)
    (accountPermission : PermissionLevel) (tempId : String) : ModalState :=
  if !isValidEmail accountEmail then
    { s with error := some accountRequiredKey }
  else
    let email := jsToLower (jsTrim accountEmail)
    let account : AccountPermission :=
      { accountId := tempId, email := email, permission := accountPermission }
    let accounts :=
      match s.permissions.accounts.findIdx? (fun item => item.email = email) with
      | some i => s.permissions.accounts.set i account
      | none => s.permissions.accounts ++ [account]
    { s with
      error := none
      permissions := { s.permissions with accounts := accounts } }

/-- The provisional state `handleAccountSubmit` renders while the call is
in flight: visibility forced to `account`, `optimistic = true`, banner
cleared. -/
def accountSubmitOptimistic (s : ModalState) : ModalState :=
  { permissions := { s.permissions with visibility := .account }
    optimistic := true
    error := none }

/-- `handleAccountSubmit`, settled: given the result of the awaited
`updateAccountPermissions` call, the final modal state together with the
argument passed to `onPermissionsUpdate` (`none` when the callback is not
invoked).  An empty local account list is rejected up front with the
validation banner and no call is issued; on success `commitUpdate`
installs the authoritative response and fires the callback; on failure
`rollbackUpdate` restores the `previous` snapshot captured before the
optimistic update and the generic banner is shown. -/
def handleAccountSubmit (s : ModalState) (result : ApiResult) :
    ModalState × Option DocumentPermissions :=
  if s.permissions.accounts = [] then
    ({ s with error := some accountRequiredKey }, none)
  else
    let previous := s.permissions
    match result with
    | .success updated =>
        ({ permissions := updated, optimistic := false, error := none },
         some updated)
    | .failure =>
        ({ permissions := previous, optimistic := false,
           error := some genericErrorKey }, none)

/-! ### Visibility resolver

The resolver itself is not part of the repository's sources (only its
documentation is), so it is modelled from the specification. -/

/-- The role granting rule 2, `admin`. -/
def adminRole : String := "admin"

/-- Modelled from the spec: the `IdentityContext` — caller id, role set,
explicit document assignments, delegated team memberships — extended with
the caller's email, which the `restricted` gate consults. -/
structure IdentityContext where
  id : String
  email : String
  roles : List String
  assignments : List String
  delegatedTeams : List String
deriving DecidableEq

/-- Modelled from the spec: the document metadata the resolver consults —
its id, `requiredRoles`, and the teams of its owning scope (rule 6). -/
structure Document where
  id : String
  requiredRoles : List String
  scopeTeams : List String
deriving DecidableEq

/-- Modelled from the spec: the resolver's decision,
`{granted: bool, level?: PermissionLevel}` with the failure taxonomy
`Unauthenticated` / `Forbidden`. -/
inductive Decision
  | granted (level : PermissionLevel)
  | deniedUnauthenticated
  | deniedForbidden
deriving DecidableEq

/-- Modelled from the spec: the caller's email domain — the part after
the last `@`. -/
def emailDomain (email : String) : String :=
  match (email.splitOn "@").reverse with
  | [] => ""
  | d :: _ => d

/-- Modelled from the spec: rules 5–7 — grant at the default `read` level
on a role intersection with `requiredRoles`, else on a delegated-team
intersection with the owning scope's teams, else deny with `Forbidden`. -/
def roleOrTeamRules (doc : Document) (ctx : IdentityContext) : Decision :=
  if doc.requiredRoles.any (fun r => ctx.roles.contains r) then
    .granted .read
  else if doc.scopeTeams.any (fun t => ctx.delegatedTeams.contains t) then
    .granted .read
  else
    .deniedForbidden

/-- Modelled from the spec: `resolve(document, identity)` — the missing
Visibility Resolver.  Fixed short-circuit order: (1) absent identity is
`Unauthenticated`; (2) a global administrator is granted at full (`edit`)
level; (3) an explicit assignment wins, at the default `read` level;
(4) a matching per-account entry grants at that entry's level; then the
visibility mode gates rules 5/6: `public` short-circuits to `read`,
`restricted` requires the caller's email domain to match an entry of
`domains` before rules 5–7 run, `account` with no matching entry falls
through to rules 5–7. -/
def resolve (doc : Document) (record : DocumentPermissions)
    (identity : Option IdentityContext) : Decision :=
  match identity with
  | none => .deniedUnauthenticated
  | some ctx =>
    if ctx.roles.contains adminRole then
      .granted .edit
    else if ctx.assignments.contains doc.id then
      .granted .read
    else
      match record.accounts.find? (fun a => a.accountId = ctx.id) with
      | some a => .granted a.permission
      | none =>
        match record.visibility with
        | .public => .granted .read
        | .restricted =>
            if record.domains.any (fun d => d.domain = emailDomain ctx.email) then
              roleOrTeamRules doc ctx
            else
              .deniedForbidden
        | .account => roleOrTeamRules doc ctx

/-! ### Invariants and concrete instances -/

/-- The audit-trail bound: every stored record's trail has at most 50
entries. -/
def TrailBound (store : Storage) : Prop :=
  ∀ p ∈ store, p.2.auditTrail.length ≤ 50

instance (store : Storage) : Decidable (TrailBound store) :=
  List.decidableBAll _ store

/-- A store holding one record with a non-empty domain list. -/
def c1Store : Storage :=
  [("doc-1",
    { documentId := "doc-1"
      visibility := .restricted
      domains := [{ domain := "example.com" }]
      accounts := []
      auditTrail := [] })]

/-- A store holding one record with one account and an empty trail. -/
def c4Store : Storage :=
  [("doc-1",
    { documentId := "doc-1"
      visibility := .account
      domains := []
      accounts := [{ accountId := "a1", email := "a1@x.com", permission := .read }]
      auditTrail := [] })]

/-- A store whose record holds two accounts sharing the id `a1`. -/
def c10Store : Storage :=
  [("doc-1",
    { documentId := "doc-1"
      visibility := .account
      domains := []
      accounts :=
        [{ accountId := "a1", email := "p@x.com", permission := .read },
         { accountId := "a1", email := "q@x.com", permission := .edit }]
      auditTrail := [] })]

/-- A store whose record holds two accounts with distinct ids. -/
def c10WitnessStore : Storage :=
  [("doc-1",
    { documentId := "doc-1"
      visibility := .account
      domains := []
      accounts :=
        [{ accountId := "a1", email := "p@x.com", permission := .read },
         { accountId := "b2", email := "q@x.com", permission := .edit }]
      auditTrail := [] })]

/-- A ShareModal state as rendered for a restricted document with no
collaborators yet. -/
def c7Initial : ModalState :=
  { permissions :=
      { documentId := "doc-1"
        visibility := .restricted
        domains := [{ domain := "example.com" }]
        accounts := []
        auditTrail := [] }
    optimistic := false
    error := none }

/-- `c7Initial` after the user adds `test@example.com` with `edit`
permission; the client generates the temporary id `temp-1`. -/
def c7AfterAdd : ModalState :=
  addAccount c7Initial "test@example.com" .edit "temp-1"

/-- A document with no required roles and no scope teams. -/
def c8Doc : Document :=
  { id := "doc-1", requiredRoles := [], scopeTeams := [] }

/-- A public permission record with empty lists. -/
def c8Record : DocumentPermissions :=
  { documentId := "doc-1"
    visibility := .public
    domains := []
    accounts := []
    auditTrail := [] }

/-- An identity holding the global-administrator role. -/
def c8Admin : IdentityContext :=
  { id := "u1", email := "u1@x.com", roles := ["admin"], assignments := [],
    delegatedTeams := [] }

/-- An identity with empty roles and no assignments. -/
def c8Plain : IdentityContext :=
  { id := "u2", email := "u2@x.com", roles := [], assignments := [],
    delegatedTeams := [] }

/-! ### Helper lemmas -/

/-- The `forEach`/`unshift` loop of `updateAudit` prepends the mapped
entries in reverse order. -/
theorem foldl_unshift (f : AccountPermission → CollaboratorAuditEntry)
    (accounts : List AccountPermission) (init : List CollaboratorAuditEntry) :
    accounts.foldl (fun t a => f a :: t) init = (accounts.map f).reverse ++ init := by
  induction accounts generalizing init with
  | nil => simp
  | cons a t ih => simp [ih]

/-- Reading a key right after writing it returns the written record. -/
theorem getOrCreateRecord_putRecord_same (store : Storage) (documentId : String)
    (rec : DocumentPermissions) :
    getOrCreateRecord (putRecord store documentId rec) documentId = rec := by
  simp [getOrCreateRecord, putRecord]

/-- Members of a store after a write: the written pair or a prior member. -/
theorem mem_of_mem_putRecord {store : Storage} {documentId : String}
    {rec : DocumentPermissions} {p : String × DocumentPermissions}
    (h : p ∈ putRecord store documentId rec) : p = (documentId, rec) ∨ p ∈ store := by
  simp only [putRecord, List.mem_cons, List.mem_filter] at h
  rcases h with h | h
  · exact Or.inl h
  · exact Or.inr h.1

/-- Writing a record with a bounded trail preserves `TrailBound`. -/
theorem trailBound_putRecord {store : Storage} {documentId : String}
    {rec : DocumentPermissions} (hb : TrailBound store)
    (hr : rec.auditTrail.length ≤ 50) :
    TrailBound (putRecord store documentId rec) := by
  intro p hp
  rcases mem_of_mem_putRecord hp with rfl | hp
  · exact hr
  · exact hb p hp

/-- In a bounded store, every looked-up (or lazily created) record has a
bounded trail. -/
theorem getOrCreateRecord_trail_le {store : Storage} (hb : TrailBound store)
    (documentId : String) :
    (getOrCreateRecord store documentId).auditTrail.length ≤ 50 := by
  cases hfind : store.find? (fun p => p.1 = documentId) with
  | none => simp [getOrCreateRecord, hfind, defaultRecord]
  | some p =>
    have hm := hb p (List.mem_of_find?_eq_some hfind)
    simpa [getOrCreateRecord, hfind] using hm

/-- Closed form of the record returned by `setAccountPermissions`. -/
theorem setAccountPermissions_fst (store : Storage)
    (documentId actorId timestamp : String) (accounts : List AccountPermission) :
    (setAccountPermissions store documentId accounts actorId timestamp).1 =
      { getOrCreateRecord store documentId with
          visibility := .account
          accounts := accounts
          auditTrail :=
            ((accounts.map (mkAuditEntry timestamp actorId)).reverse ++
              (getOrCreateRecord store documentId).auditTrail).take 50 } := by
  simp [setAccountPermissions, updateAudit, getOrCreateRecord_putRecord_same,
    foldl_unshift]

/-- Closed form of the record returned by `removeAccountPermission`. -/
theorem removeAccountPermission_fst (store : Storage)
    (documentId accountId actorId timestamp : String) :
    (removeAccountPermission store documentId accountId actorId timestamp).1 =
      { getOrCreateRecord store documentId with
          accounts :=
            (getOrCreateRecord store documentId).accounts.filter
              (fun a => a.accountId ≠ accountId)
          auditTrail :=
            ((((getOrCreateRecord store documentId).accounts.filter
                  (fun a => a.accountId ≠ accountId)).map
                (mkAuditEntry timestamp actorId)).reverse ++
              (getOrCreateRecord store documentId).auditTrail).take 50 } := by
  simp [removeAccountPermission, updateAudit, getOrCreateRecord_putRecord_same,
    foldl_unshift]

/-! ### Claim theorems -/

/-- C2: for every document id and every prior record state, `setVisibility`
with `public` yields (and stores) a record whose `domains` and `accounts`
are both empty, cleared in the same call as the visibility change,
whatever the prior lists held; the audit trail and document id are
untouched. -/
theorem setVisibility_public_clears_lists (store : Storage)
    (documentId actorId : String) :
    (setVisibility store documentId .public actorId).1 =
      { getOrCreateRecord store documentId with
          visibility := .public, domains := [], accounts := [] } ∧
    getOrCreateRecord (setVisibility store documentId .public actorId).2 documentId =
      { getOrCreateRecord store documentId with
          visibility := .public, domains := [], accounts := [] } := by
  constructor
  · simp [setVisibility]
  · simp [setVisibility, getOrCreateRecord_putRecord_same]

/-- C9: for every document id and actor, `setVisibility` with `restricted`
or `account` changes only the `visibility` field: domains, accounts and
audit trail carry over exactly, remaining as dormant state under the new
mode. -/
theorem setVisibility_nonpublic_frame (store : Storage)
    (documentId actorId : String) (v : Visibility) (hv : v ≠ .public) :
    (setVisibility store documentId v actorId).1 =
      { getOrCreateRecord store documentId with visibility := v } ∧
    getOrCreateRecord (setVisibility store documentId v actorId).2 documentId =
      { getOrCreateRecord store documentId with visibility := v } := by
  cases v with
  | public => exact absurd rfl hv
  | restricted =>
    exact ⟨by simp [setVisibility], by
      simp [setVisibility, getOrCreateRecord_putRecord_same]⟩
  | account =>
    exact ⟨by simp [setVisibility], by
      simp [setVisibility, getOrCreateRecord_putRecord_same]⟩

/-- C9 witness: switching a concretely stored record to `restricted`
keeps its non-empty account list and audit trail. -/
theorem setVisibility_nonpublic_frame_witness :
    (setVisibility c4Store "doc-1" .restricted "actor-1").1 =
      { getOrCreateRecord c4Store "doc-1" with visibility := .restricted } ∧
    getOrCreateRecord (setVisibility c4Store "doc-1" .restricted "actor-1").2 "doc-1" =
      { getOrCreateRecord c4Store "doc-1" with visibility := .restricted } :=
  setVisibility_nonpublic_frame c4Store "doc-1" "actor-1" .restricted (by decide)

/-- C1 counterexample: on a store whose record holds a non-empty domain
list, `setDomainRestrictions` with the empty list does not reject — it
overwrites the stored record, so the store is not left as it was. -/
theorem setDomainRestrictions_empty_mutates_cex :
    getOrCreateRecord (setDomainRestrictions c1Store "doc-1" [] "actor-1").2 "doc-1" ≠
      getOrCreateRecord c1Store "doc-1" ∧
    (setDomainRestrictions c1Store "doc-1" [] "actor-1").1.domains = [] ∧
    (getOrCreateRecord c1Store "doc-1").domains = [{ domain := "example.com" }] := by
  refine ⟨by decide, by decide, by decide⟩

/-- C1 amended: the Mutation Service performs no validation — an empty
`domains` list is stored verbatim with `visibility = restricted`, and an
empty `accounts` list is stored with `visibility = account` and no new
audit entries; neither call can fail. -/
theorem emptyList_mutations_succeed (store : Storage)
    (documentId actorId timestamp : String) :
    (setDomainRestrictions store documentId [] actorId).1 =
      { getOrCreateRecord store documentId with
          visibility := .restricted, domains := [] } ∧
    (setAccountPermissions store documentId [] actorId timestamp).1 =
      { getOrCreateRecord store documentId with
          visibility := .account, accounts := [],
          auditTrail := (getOrCreateRecord store documentId).auditTrail.take 50 } := by
  constructor
  · simp [setDomainRestrictions]
  · simpa using setAccountPermissions_fst store documentId actorId timestamp []

/-- C3: `setAccountPermissions` with a non-empty list of length N replaces
the stored account list with exactly the given list, forces
`visibility = account`, and pushes one audit entry per account — N entries,
all with the given timestamp and `updatedBy = actorId` — onto the front of
the trail, truncated to 50; when the cap is not hit the trail grows by
exactly N. -/
theorem setAccountPermissions_replaces_and_audits (store : Storage)
    (documentId actorId timestamp : String) (accounts : List AccountPermission)
    (hne : accounts ≠ []) :
    (setAccountPermissions store documentId accounts actorId timestamp).1.accounts =
      accounts ∧
    (setAccountPermissions store documentId accounts actorId timestamp).1.visibility =
      .account ∧
    (setAccountPermissions store documentId accounts actorId timestamp).1.auditTrail =
      ((accounts.map (mkAuditEntry timestamp actorId)).reverse ++
        (getOrCreateRecord store documentId).auditTrail).take 50 ∧
    (accounts.map (mkAuditEntry timestamp actorId)).length = accounts.length ∧
    (∀ e ∈ accounts.map (mkAuditEntry timestamp actorId),
        e.updatedAt = timestamp ∧ e.updatedBy = actorId) ∧
    ((getOrCreateRecord store documentId).auditTrail.length + accounts.length ≤ 50 →
      (setAccountPermissions store documentId accounts actorId timestamp).1.auditTrail.length =
        accounts.length + (getOrCreateRecord store documentId).auditTrail.length) := by
  have hfst := setAccountPermissions_fst store documentId actorId timestamp accounts
  refine ⟨by rw [hfst], by rw [hfst], by rw [hfst], by simp, ?_, ?_⟩
  · intro e he
    rcases List.mem_map.mp he with ⟨a, _, rfl⟩
    exact ⟨rfl, rfl⟩
  · intro hcap
    rw [hfst]
    simp only [DocumentPermissions.mk.injEq]
    rw [List.take_of_length_le (by simp; omega)]
    simp

/-- C3 witness: adding one account to an empty record yields that account
list, `visibility = account`, and a single audit entry carrying the
timestamp and actor. -/
theorem setAccountPermissions_replaces_and_audits_witness :
    (setAccountPermissions ([] : Storage) "doc-1"
        [{ accountId := "a1", email := "x@y.com", permission := .edit }]
        "actor-1" "t0").1.accounts =
      [{ accountId := "a1", email := "x@y.com", permission := .edit }] ∧
    (setAccountPermissions ([] : Storage) "doc-1"
        [{ accountId := "a1", email := "x@y.com", permission := .edit }]
        "actor-1" "t0").1.visibility = .account :=
  have h := setAccountPermissions_replaces_and_audits ([] : Storage) "doc-1"
    "actor-1" "t0"
    [{ accountId := "a1", email := "x@y.com", permission := .edit }] (by decide)
  ⟨h.1, h.2.1⟩

/-- `updateAudit` always leaves a bounded store bounded: the written trail
is truncated with `slice(0, 50)`. -/
theorem trailBound_updateAudit {store : Storage} (hb : TrailBound store)
    (documentId changedBy timestamp : String)
    (accounts : List AccountPermission) :
    TrailBound (updateAudit store documentId changedBy timestamp accounts) := by
  simp only [updateAudit]
  apply trailBound_putRecord hb
  exact List.length_take_le 50 _

/-- C5: the 50-entry audit-trail bound is an invariant of every Permission
Store operation, and `setAccountPermissions` places its fresh entries at
the front of the trail, dropping the oldest entries past the cap. -/
theorem auditTrail_invariant (store : Storage)
    (documentId actorId timestamp accountId : String) (v : Visibility)
    (domains : List DomainRestriction) (accounts : List AccountPermission)
    (hb : TrailBound store) :
    TrailBound (getPermissions store documentId).2 ∧
    TrailBound (setVisibility store documentId v actorId).2 ∧
    TrailBound (setDomainRestrictions store documentId domains actorId).2 ∧
    TrailBound (setAccountPermissions store documentId accounts actorId timestamp).2 ∧
    TrailBound (removeAccountPermission store documentId accountId actorId timestamp).2 ∧
    (setAccountPermissions store documentId accounts actorId timestamp).1.auditTrail =
      ((accounts.map (mkAuditEntry timestamp actorId)).reverse ++
        (getOrCreateRecord store documentId).auditTrail).take 50 := by
  refine ⟨?_, ?_, ?_, ?_, ?_, by rw [setAccountPermissions_fst]⟩
  · simp only [getPermissions]
    exact trailBound_putRecord hb (getOrCreateRecord_trail_le hb documentId)
  · simp only [setVisibility]
    apply trailBound_putRecord hb
    split <;> exact getOrCreateRecord_trail_le hb documentId
  · simp only [setDomainRestrictions]
    exact trailBound_putRecord hb (getOrCreateRecord_trail_le hb documentId)
  · simp only [setAccountPermissions]
    apply trailBound_updateAudit
    apply trailBound_putRecord hb
    exact getOrCreateRecord_trail_le hb documentId
  · simp only [removeAccountPermission]
    apply trailBound_updateAudit
    apply trailBound_putRecord hb
    exact getOrCreateRecord_trail_le hb documentId

/-- C5 witness: on a concrete bounded store, one `setAccountPermissions`
call leaves the store bounded. -/
theorem auditTrail_invariant_witness :
    TrailBound (setAccountPermissions c4Store "doc-1"
      [{ accountId := "a1", email := "x@y.com", permission := .edit }]
      "actor-1" "t0").2 :=
  (auditTrail_invariant c4Store "doc-1" "actor-1" "t0" "a1" .account []
    [{ accountId := "a1", email := "x@y.com", permission := .edit }]
    (by decide)).2.2.2.1

/-- C4 counterexample: removing an absent `accountId` from a record with
one account leaves the account list unchanged but appends one audit entry
to the previously empty trail — the call is not audit-free. -/
theorem removeAccountPermission_missing_audits_cex :
    (removeAccountPermission c4Store "doc-1" "missing-id" "actor-1" "t0").1.accounts =
      (getOrCreateRecord c4Store "doc-1").accounts ∧
    (removeAccountPermission c4Store "doc-1" "missing-id" "actor-1" "t0").1.auditTrail.length = 1 ∧
    (getOrCreateRecord c4Store "doc-1").auditTrail.length = 0 :=
  ⟨by decide, by decide, by decide⟩

/-- C4 amended: removing an absent `accountId` is not an error and leaves
the account list, visibility and domains unchanged, but `updateAudit`
still runs over the (unchanged) account list, appending one entry per
stored account; the record is returned fully unchanged only when its
account list is empty. -/
theorem removeAccountPermission_missing_id (store : Storage)
    (documentId accountId actorId timestamp : String)
    (habs : ∀ a ∈ (getOrCreateRecord store documentId).accounts,
      a.accountId ≠ accountId) :
    (removeAccountPermission store documentId accountId actorId timestamp).1.accounts =
      (getOrCreateRecord store documentId).accounts ∧
    (removeAccountPermission store documentId accountId actorId timestamp).1.visibility =
      (getOrCreateRecord store documentId).visibility ∧
    (removeAccountPermission store documentId accountId actorId timestamp).1.domains =
      (getOrCreateRecord store documentId).domains ∧
    (removeAccountPermission store documentId accountId actorId timestamp).1.auditTrail =
      (((getOrCreateRecord store documentId).accounts.map
          (mkAuditEntry timestamp actorId)).reverse ++
        (getOrCreateRecord store documentId).auditTrail).take 50 ∧
    ((getOrCreateRecord store documentId).accounts = [] →
      (getOrCreateRecord store documentId).auditTrail.length ≤ 50 →
      (removeAccountPermission store documentId accountId actorId timestamp).1 =
        getOrCreateRecord store documentId) := by
  have hfilter : (getOrCreateRecord store documentId).accounts.filter
      (fun a => a.accountId ≠ accountId) =
      (getOrCreateRecord store documentId).accounts :=
    List.filter_eq_self.mpr (fun a ha => by simpa using habs a ha)
  have hfst := removeAccountPermission_fst store documentId accountId actorId timestamp
  rw [hfilter] at hfst
  refine ⟨by rw [hfst], by rw [hfst], by rw [hfst], by rw [hfst], ?_⟩
  intro hempty hlen
  have htrail : ((((getOrCreateRecord store documentId).accounts.map
      (mkAuditEntry timestamp actorId)).reverse ++
      (getOrCreateRecord store documentId).auditTrail).take 50) =
      (getOrCreateRecord store documentId).auditTrail := by
    rw [hempty]
    simpa using List.take_of_length_le hlen
  rw [hfst, htrail]

/-- C4 witness: a concrete missing-id removal leaves the stored account
list untouched. -/
theorem removeAccountPermission_missing_id_witness :
    (removeAccountPermission c4Store "doc-1" "missing-id" "actor-1" "t0").1.accounts =
      (getOrCreateRecord c4Store "doc-1").accounts :=
  (removeAccountPermission_missing_id c4Store "doc-1" "missing-id" "actor-1" "t0"
    (by decide)).1

/-- C10 counterexample: on a record whose two accounts share the id `a1`
(N = 2, id present), removal filters out both, so zero audit entries are
appended rather than N - 1 = 1. -/
theorem removeAccountPermission_duplicate_cex :
    (getOrCreateRecord c10Store "doc-1").accounts.length = 2 ∧
    ((getOrCreateRecord c10Store "doc-1").accounts.map
      (fun a => a.accountId)).contains "a1" = true ∧
    (removeAccountPermission c10Store "doc-1" "a1" "actor-1" "t0").1.accounts = [] ∧
    (removeAccountPermission c10Store "doc-1" "a1" "actor-1" "t0").1.auditTrail.length = 0 :=
  ⟨by decide, by decide, by decide, by decide⟩

/-- C10 amended: when the stored account list contains the given
`accountId`, `removeAccountPermission` filters out every occurrence
(leaving N - k accounts for k occurrences; N - 1 exactly when the id
occurs once) and pushes one audit entry per remaining account — all with
one timestamp, attributed to the actor, none recording the removed id —
onto the front of the trail; no entry is appended when the remaining list
is empty. -/
theorem removeAccountPermission_present_id (store : Storage)
    (documentId accountId actorId timestamp : String)
    (hmem : accountId ∈ (getOrCreateRecord store documentId).accounts.map
      (fun a => a.accountId)) :
    (removeAccountPermission store documentId accountId actorId timestamp).1.accounts =
      (getOrCreateRecord store documentId).accounts.filter
        (fun a => a.accountId ≠ accountId) ∧
    ((getOrCreateRecord store documentId).accounts.filter
        (fun a => a.accountId ≠ accountId)).length +
      (getOrCreateRecord store documentId).accounts.countP
        (fun a => a.accountId = accountId) =
      (getOrCreateRecord store documentId).accounts.length ∧
    ((getOrCreateRecord store documentId).accounts.countP
        (fun a => a.accountId = accountId) = 1 →
      ((getOrCreateRecord store documentId).accounts.filter
          (fun a => a.accountId ≠ accountId)).length + 1 =
        (getOrCreateRecord store documentId).accounts.length) ∧
    (removeAccountPermission store documentId accountId actorId timestamp).1.auditTrail =
      ((((getOrCreateRecord store documentId).accounts.filter
            (fun a => a.accountId ≠ accountId)).map
          (mkAuditEntry timestamp actorId)).reverse ++
        (getOrCreateRecord store documentId).auditTrail).take 50 ∧
    (∀ e ∈ ((getOrCreateRecord store documentId).accounts.filter
        (fun a => a.accountId ≠ accountId)).map (mkAuditEntry timestamp actorId),
      e.updatedAt = timestamp ∧ e.updatedBy = actorId ∧ e.accountId ≠ accountId) ∧
    ((getOrCreateRecord store documentId).accounts.filter
        (fun a => a.accountId ≠ accountId) = [] →
      (removeAccountPermission store documentId accountId actorId timestamp).1.auditTrail =
        (getOrCreateRecord store documentId).auditTrail.take 50) := by
  have hfst := removeAccountPermission_fst store documentId accountId actorId timestamp
  have hsplit := List.length_eq_countP_add_countP
    (fun a : AccountPermission => decide (a.accountId = accountId))
    (getOrCreateRecord store documentId).accounts
  have hfilt : ((getOrCreateRecord store documentId).accounts.filter
      (fun a => a.accountId ≠ accountId)).length =
      List.countP
        (fun a : AccountPermission =>
          decide ¬(decide (a.accountId = accountId) = true))
        (getOrCreateRecord store documentId).accounts := by
    rw [List.countP_eq_length_filter]
    apply congrArg List.length
    apply List.filter_congr
    intro a _
    simp
  refine ⟨by rw [hfst], by omega, by omega, by rw [hfst], ?_, ?_⟩
  · intro e he
    rcases List.mem_map.mp he with ⟨a, ha, rfl⟩
    refine ⟨rfl, rfl, ?_⟩
    have hpa := (List.mem_filter.mp ha).2
    simpa [mkAuditEntry] using hpa
  · intro hnil
    rw [hfst, hnil]
    simp

/-- C10 witness: removing `a1` from a record holding `a1` and `b2` leaves
`b2` and appends one entry for it. -/
theorem removeAccountPermission_present_id_witness :
    (removeAccountPermission c10WitnessStore "doc-1" "a1" "actor-1" "t0").1.accounts =
      (getOrCreateRecord c10WitnessStore "doc-1").accounts.filter
        (fun a => a.accountId ≠ "a1") :=
  (removeAccountPermission_present_id c10WitnessStore "doc-1" "a1" "actor-1" "t0"
    (by decide)).1

/-- C6 counterexample: `setDomainRestrictions` stores its input verbatim —
an entry with surrounding whitespace, a leading `@` and uppercase letters,
plus its normalised duplicate, is stored exactly as given, neither
normalised nor de-duplicated. -/
theorem setDomainRestrictions_verbatim_cex :
    (setDomainRestrictions ([] : Storage) "doc-1"
        [{ domain := " @Example.COM " }, { domain := "example.com" }]
        "actor-1").1.domains =
      [{ domain := " @Example.COM " }, { domain := "example.com" }] ∧
    normaliseDomain " @Example.COM " = "example.com" ∧
    " @Example.COM " ≠ "example.com" :=
  ⟨by decide, by decide, by decide⟩

/-- C6 amended: the service stores the given domain list verbatim and
forces `visibility = restricted`; the trim / strip-leading-`@` /
lowercase normalisation and duplicate-skipping happen client-side in the
ShareModal's `addDomain`, which appends exactly the normalised domain
when it is new, leaves the list unchanged when it is already present, and
preserves freedom from duplicates. -/
theorem setDomainRestrictions_verbatim_client_normalises (store : Storage)
    (documentId actorId : String) (domains : List DomainRestriction)
    (s : ModalState) (input : String) (hvalid : isValidDomain input = true) :
    (setDomainRestrictions store documentId domains actorId).1 =
      { getOrCreateRecord store documentId with
          visibility := .restricted, domains := domains } ∧
    (∀ d ∈ (addDomain s input).permissions.domains,
      d ∈ s.permissions.domains ∨ d.domain = normaliseDomain input) ∧
    ({ domain := normaliseDomain input } ∈ (addDomain s input).permissions.domains) ∧
    (s.permissions.domains.any (fun d => d.domain = normaliseDomain input) = true →
      (addDomain s input).permissions.domains = s.permissions.domains) ∧
    ((s.permissions.domains.map (fun d => d.domain)).Nodup →
      ((addDomain s input).permissions.domains.map (fun d => d.domain)).Nodup) := by
  refine ⟨by simp [setDomainRestrictions], ?_, ?_, ?_, ?_⟩
  · intro d hd
    simp only [addDomain, hvalid] at hd
    by_cases hex : s.permissions.domains.any (fun d => d.domain = normaliseDomain input)
    · simp only [hex] at hd
      simp at hd
      exact Or.inl hd
    · simp only [Bool.not_eq_true] at hex
      simp only [hex] at hd
      simp at hd
      rcases hd with hd | hd
      · exact Or.inl hd
      · exact Or.inr (by rw [hd])
  · simp only [addDomain, hvalid]
    by_cases hex : s.permissions.domains.any (fun d => d.domain = normaliseDomain input)
    · simp only [hex]
      rcases List.any_eq_true.mp hex with ⟨d, hd, hdom⟩
      have : d = { domain := normaliseDomain input } := by
        cases d
        simpa using hdom
      simpa [this] using hd
    · simp only [Bool.not_eq_true] at hex
      simp [hex]
  · intro hex
    simp [addDomain, hvalid, hex]
  · intro hnodup
    simp only [addDomain, hvalid]
    by_cases hex : s.permissions.domains.any (fun d => d.domain = normaliseDomain input)
    · simpa [hex] using hnodup
    · simp only [Bool.not_eq_true] at hex
      simp only [hex, addDomain, hvalid, Bool.not_true, Bool.false_eq_true,
        if_false, List.map_append]
      simp only [List.map_cons, List.map_nil]
      rw [List.nodup_append]
      refine ⟨hnodup, by simp, ?_⟩
      rw [List.disjoint_singleton]
      intro hmem
      rcases List.mem_map.mp hmem with ⟨d, hd, hdom⟩
      have hany : (s.permissions.domains.any
          fun d => decide (d.domain = normaliseDomain input)) = true :=
        List.any_eq_true.mpr ⟨d, hd, by simpa using hdom⟩
      rw [hex] at hany
      exact Bool.false_ne_true hany

/-- C6 witness: the service stores a raw, un-normalised list verbatim
while `addDomain` on the same raw input appends only its normalised
form. -/
theorem setDomainRestrictions_verbatim_client_normalises_witness :
    (setDomainRestrictions ([] : Storage) "doc-1"
        [{ domain := " @Example.COM " }] "actor-1").1 =
      { getOrCreateRecord ([] : Storage) "doc-1" with
          visibility := .restricted, domains := [{ domain := " @Example.COM " }] } :=
  (setDomainRestrictions_verbatim_client_normalises ([] : Storage) "doc-1"
    "actor-1" [{ domain := " @Example.COM " }] c7Initial " @Example.COM "
    (by decide)).1

/-- C7 counterexample: the account `temp-1` is added to the local state
before submit, so the snapshot captured by `handleAccountSubmit` already
contains it — after the server rejection the rolled-back state still
shows `temp-1`, not a state with the prediction absent (the error banner
and the skipped callback do behave as claimed). -/
theorem shareModal_rollback_keeps_temp_cex :
    ((handleAccountSubmit c7AfterAdd .failure).1.permissions.accounts.map
      (fun a => a.accountId)) = ["temp-1"] ∧
    (handleAccountSubmit c7AfterAdd .failure).2 = none ∧
    (handleAccountSubmit c7AfterAdd .failure).1.error = some genericErrorKey :=
  ⟨by decide, by decide, by decide⟩

/-- C7 amended: when the mutation call rejects, the displayed permissions
revert to the exact snapshot captured at submit time before the
optimistic visibility change was applied, the generic error banner is
shown, and `onPermissionsUpdate` is not invoked; an account added locally
before submit — such as the predicted `temp-1` — belongs to that
snapshot and therefore remains displayed after the rollback. -/
theorem shareModal_rollback (s : ModalState)
    (hne : s.permissions.accounts ≠ []) :
    handleAccountSubmit s .failure =
      ({ permissions := s.permissions, optimistic := false,
         error := some genericErrorKey }, none) ∧
    (accountSubmitOptimistic s).permissions.visibility = .account ∧
    (accountSubmitOptimistic s).optimistic = true ∧
    ((handleAccountSubmit c7AfterAdd .failure).1.permissions.accounts.map
      (fun a => a.accountId)) = ["temp-1"] := by
  refine ⟨?_, rfl, rfl, by decide⟩
  simp [handleAccountSubmit, hne]

/-- C7 witness: the concrete rejected save rolls back to the submit-time
snapshot with the banner shown and no callback. -/
theorem shareModal_rollback_witness :
    handleAccountSubmit c7AfterAdd .failure =
      ({ permissions := c7AfterAdd.permissions, optimistic := false,
         error := some genericErrorKey }, none) :=
  (shareModal_rollback c7AfterAdd (by decide)).1

/-- C8 counterexample: on a public document, an identity holding the
global-administrator role is granted at full (`edit`) level by rule 2 —
not at `read` level as claimed for every identity. -/
theorem resolve_public_admin_cex :
    c8Record.visibility = .public ∧
    resolve c8Doc c8Record (some c8Admin) = .granted .edit ∧
    resolve c8Doc c8Record (some c8Admin) ≠ .granted .read :=
  ⟨by decide, by decide, by decide⟩

/-- C8 amended: on a public document every identity is granted access and
the decision never consults `requiredRoles` or the scope teams (rule 5 is
short-circuited); an identity not matched by rules 2–4 — non-admin, not
assigned, absent from the account list, in particular one with empty
roles and no assignments — is granted at exactly `read` level, while an
administrator is granted at full (`edit`) level by rule 2. -/
theorem resolve_public_grants (doc : Document) (record : DocumentPermissions)
    (ctx : IdentityContext) (hpub : record.visibility = .public) :
    (∃ l, resolve doc record (some ctx) = .granted l) ∧
    (∀ rr st,
      resolve { doc with requiredRoles := rr, scopeTeams := st } record (some ctx) =
        resolve doc record (some ctx)) ∧
    (ctx.roles.contains adminRole = false →
      ctx.assignments.contains doc.id = false →
      record.accounts.find? (fun a => a.accountId = ctx.id) = none →
      resolve doc record (some ctx) = .granted .read) := by
  by_cases hadm : adminRole ∈ ctx.roles
  · refine ⟨⟨.edit, by simp [resolve, hadm]⟩, ?_, ?_⟩
    · intro rr st
      simp [resolve, hadm]
    · intro h _ _
      exact absurd hadm (by simpa using h)
  · by_cases hass : doc.id ∈ ctx.assignments
    · refine ⟨⟨.read, by simp [resolve, hadm, hass]⟩, ?_, ?_⟩
      · intro rr st
        simp [resolve, hadm, hass]
      · intro _ h _
        exact absurd hass (by simpa using h)
    · cases hfind : record.accounts.find? (fun a => a.accountId = ctx.id) with
      | some a =>
        refine ⟨⟨a.permission, by simp [resolve, hadm, hass, hfind]⟩, ?_, ?_⟩
        · intro rr st
          simp [resolve, hadm, hass, hfind]
        · intro _ _ h
          exact Option.noConfusion h
      | none =>
        refine ⟨⟨.read, by simp [resolve, hadm, hass, hfind, hpub]⟩, ?_, ?_⟩
        · intro rr st
          simp [resolve, hadm, hass, hfind, hpub]
        · intro _ _ _
          simp [resolve, hadm, hass, hfind, hpub]

/-- C8 witness: on the concrete public document, an identity with empty
roles and no assignments is granted at exactly `read` level. -/
theorem resolve_public_grants_witness :
    resolve c8Doc c8Record (some c8Plain) = .granted .read :=
  (resolve_public_grants c8Doc c8Record c8Plain (by decide)).2.2
    (by decide) (by decide) (by decide)

end DMS
